import Mathlib

/-!
Shallow embedding of the rendezvous-and-lifecycle coordinator of `tf_skein`
(`src/tf_skein/_internal.py` and `src/tf_skein/cluster.py`), together with
theorems settling the specification claims about it.

The process environment, Python dicts and cluster-spec dicts are modelled as
association lists `List (String × _)` with Python's first-key-wins lookup and
in-place update semantics.
-/

set_option autoImplicit false

namespace TfSkein

/-! ## Environment model (for `xset_environ`, `_internal.py` lines 96-110)

`os.environ` is a mutable string-to-string mapping.  We model it as an
association list without duplicate-key creation: `setKey` overwrites in place,
`popKey` removes the first binding and fails (Python `KeyError`) when absent.
-/

abbrev Env := List (String × String)

/-- `env[k]`: first-match lookup, `none` when the key is absent
(Python raises `KeyError` there). -/
def lookupE : Env → String → Option String
  | [], _ => none
  | (k, v) :: rest, key => if k = key then some v else lookupE rest key

/-- `env[k] = v`: overwrite in place if present, append otherwise
(Python dict assignment). -/
def setKey : Env → String → String → Env
  | [], k, v => [(k, v)]
  | (k', v') :: rest, k, v =>
    if k' = k then (k, v) :: rest else (k', v') :: setKey rest k v

/-- `env.update(kwargs)`: assign every pair in order. -/
def updateAll (env : Env) (kwargs : List (String × String)) : Env :=
  kwargs.foldl (fun e kv => setKey e kv.1 kv.2) env

/-- `env.pop(k)`: remove the first binding of `k`, `none` when absent
(Python `KeyError`). -/
def popKey : Env → String → Option Env
  | [], _ => none
  | (k', v') :: rest, k =>
    if k' = k then some rest else (popKey rest k).map ((k', v') :: ·)

/-- The errors `xset_environ` can raise itself. -/
inductive EnvError where
  /-- `KeyError` from the `os.environ[key]` truthiness test when `key` is
  absent from the environment. -/
  | keyError (k : String)
  /-- `RuntimeError(f"\x7bkey\x7d already set in os.environ: ...")`. -/
  | alreadySet (k : String)
  /-- `RuntimeError(f"\x7bkey\x7d is missing from os.environ")` at removal. -/
  | missingOnExit (k : String)
deriving DecidableEq, Repr

/-- The entry check loop of `xset_environ`:
`for key, value in kwargs.items(): if os.environ[key]: raise RuntimeError(...)`.
`os.environ[key]` raises `KeyError` when `key` is absent; when present, the
value's truthiness (non-empty string) triggers the `RuntimeError`.  Returns the
first error raised, or `none` when the loop completes. -/
def xsetCheck (env : Env) : List (String × String) → Option EnvError
  | [] => none
  | (k, _) :: rest =>
    match lookupE env k with
    | none => some (.keyError k)
    | some s => if s ≠ "" then some (.alreadySet k) else xsetCheck env rest

/-- Entering the `xset_environ` scope: run the check loop, then
`os.environ.update(kwargs)`. -/
def xsetEnter (env : Env) (kwargs : List (String × String)) : Except EnvError Env :=
  match xsetCheck env kwargs with
  | some e => .error e
  | none => .ok (updateAll env kwargs)

/-- The removal loop after the `yield`:
`for key in kwargs: try: os.environ.pop(key) except KeyError: raise RuntimeError(...)`.
Returns the environment reached and the error, if any, that stopped the loop. -/
def xsetCleanup : Env → List String → Env × Option EnvError
  | env, [] => (env, none)
  | env, k :: rest =>
    match popKey env k with
    | none => (env, some (.missingOnExit k))
    | some env' => xsetCleanup env' rest

/-- Result of running the whole `with xset_environ(**kwargs)` scope. -/
structure ScopeResult where
  /-- The process environment after the scope has exited. -/
  finalEnv : Env
  /-- Error raised by the scope machinery itself (entry check or removal). -/
  scopeError : Option EnvError
  /-- Whether the body's own exception is propagating out of the scope. -/
  bodyExcPropagates : Bool
deriving DecidableEq, Repr

/-- The `xset_environ` context manager applied to a body that either returns
normally or raises.  Faithful to the source: the generator has no
`try`/`finally` around its `yield`, so when the body raises, the exception is
thrown into the generator at the `yield` point and the removal loop after the
`yield` never runs. -/
def xsetScope (env : Env) (kwargs : List (String × String)) (bodyRaises : Bool) :
    ScopeResult :=
  match xsetEnter env kwargs with
  | .error e => ⟨env, some e, false⟩
  | .ok env1 =>
    if bodyRaises then
      ⟨env1, none, true⟩
    else
      let (env2, err) := xsetCleanup env1 (kwargs.map Prod.fst)
      ⟨env2, err, false⟩

/-! ## ClusterSpec builders (`_internal.py` lines 56-83)

A cluster spec is a Python dict from role name to list of socket addresses.
We model it as an association list; `addEntry` is
`spec.setdefault(role, []).append(v)`: append to the existing list when the
key is present, otherwise insert the key at the end with a one-element list
(Python dicts preserve insertion order).
-/

abbrev SpecMap := List (String × List String)

/-- `spec.setdefault(role, []).append(v)`. -/
def addEntry : SpecMap → String → String → SpecMap
  | [], role, v => [(role, [v])]
  | (r, vs) :: rest, role, v =>
    if r = role then (r, vs ++ [v]) :: rest else (r, vs) :: addEntry rest role v

/-- One `for _ in range(n): spec.setdefault(role, []).append(next(reserved))`
loop of `_spec_from_iter`: draws `n` values from the remaining iterator
(modelled as a list), returning the updated spec and the rest of the iterator;
`none` when the iterator is exhausted (`StopIteration`). -/
def fillFromIter (spec : SpecMap) (role : String) :
    ℕ → List String → Option (SpecMap × List String)
  | 0, src => some (spec, src)
  | _ + 1, [] => none
  | n + 1, v :: src => fillFromIter (addEntry spec role v) role n src

/-- `_spec_from_iter(reserved, num_workers, num_ps)`: `"chief"` takes the
first drawn value, then the worker loop runs, then the ps loop — in that
source order. -/
def specFromIter (reserved : List String) (numWorkers numPs : ℕ) :
    Option SpecMap :=
  match reserved with
  | [] => none
  | c :: rest =>
    (fillFromIter [("chief", [c])] "worker" numWorkers rest).bind fun (s1, r1) =>
      (fillFromIter s1 "ps" numPs r1).map fun (s2, _) => s2

/-- One `for idx in range(n): spec.setdefault(role, []).append(kv.wait(...))`
loop of `_spec_from_kv`, starting at index `idx`.  `kv` is the key-value
service's `wait`, modelled as a total function (every requested key is
eventually published); the second component records the keys waited on, in
call order. -/
def fillFromKv (kv : String → String) (role : String) :
    ℕ → ℕ → SpecMap → List String → SpecMap × List String
  | _, 0, spec, trace => (spec, trace)
  | idx, n + 1, spec, trace =>
    let key := role ++ ":" ++ toString idx
    fillFromKv kv role (idx + 1) n (addEntry spec role (kv key)) (trace ++ [key])

/-- `_spec_from_kv(kv, num_workers, num_ps)`: waits on `"chief:0"` first, then
the ps loop runs, then the worker loop — in that source order.  Returns the
spec together with the trace of keys waited on. -/
def specFromKv (kv : String → String) (numWorkers numPs : ℕ) :
    SpecMap × List String :=
  let s0 : SpecMap := [("chief", [kv "chief:0"])]
  let (s1, t1) := fillFromKv kv "ps" 0 numPs s0 ["chief:0"]
  fillFromKv kv "worker" 0 numWorkers s1 t1

/-- `spec[role]` on a cluster-spec dict: first-match lookup. -/
def lookupRole : SpecMap → String → Option (List String)
  | [], _ => none
  | (r, vs) :: rest, role => if r = role then some vs else lookupRole rest role

/-- Repeated `setdefault(role, []).append` of a list of values. -/
def addAll (spec : SpecMap) (role : String) (vs : List String) : SpecMap :=
  vs.foldl (fun s v => addEntry s role v) spec

theorem addAll_nil (spec : SpecMap) (role : String) : addAll spec role [] = spec := rfl

theorem addAll_cons (spec : SpecMap) (role v : String) (vs : List String) :
    addAll spec role (v :: vs) = addAll (addEntry spec role v) role vs := rfl

theorem addEntry_not_mem : ∀ (spec : SpecMap) (role v : String),
    role ∉ spec.map Prod.fst → addEntry spec role v = spec ++ [(role, [v])]
  | [], _, _, _ => rfl
  | (r, ws) :: rest, role, v, h => by
    have hr : r ≠ role := fun hrr => h (by simp [hrr])
    have hrest : role ∉ rest.map Prod.fst := fun hm => h (by simp [hm])
    simp only [addEntry, if_neg hr, List.cons_append,
      addEntry_not_mem rest role v hrest]

theorem addEntry_last : ∀ (pre : SpecMap) (role : String) (acc : List String)
    (v : String), role ∉ pre.map Prod.fst →
    addEntry (pre ++ [(role, acc)]) role v = pre ++ [(role, acc ++ [v])]
  | [], role, acc, v, _ => by simp [addEntry]
  | (r, ws) :: rest, role, acc, v, h => by
    have hr : r ≠ role := fun hrr => h (by simp [hrr])
    have hrest : role ∉ rest.map Prod.fst := fun hm => h (by simp [hm])
    simp only [List.cons_append, addEntry, if_neg hr]
    exact congrArg ((r, ws) :: ·) (addEntry_last rest role acc v hrest)

theorem addAll_last : ∀ (vs : List String) (pre : SpecMap) (role : String)
    (acc : List String), role ∉ pre.map Prod.fst →
    addAll (pre ++ [(role, acc)]) role vs = pre ++ [(role, acc ++ vs)]
  | [], pre, role, acc, _ => by simp [addAll_nil]
  | v :: vs, pre, role, acc, h => by
    rw [addAll_cons, addEntry_last pre role acc v h, addAll_last vs pre role _ h,
      List.append_assoc]
    rfl

theorem addAll_not_mem (spec : SpecMap) (role : String) (vs : List String)
    (h : role ∉ spec.map Prod.fst) :
    addAll spec role vs = if vs = [] then spec else spec ++ [(role, vs)] := by
  cases vs with
  | nil => simp [addAll_nil]
  | cons v vs =>
    rw [addAll_cons, addEntry_not_mem spec role v h, addAll_last vs spec role [v] h]
    simp

/-- Running a `_spec_from_iter` fill loop on an iterator with enough elements
left: it appends the next `n` iterator values to `role` and leaves the rest. -/
theorem fillFromIter_run : ∀ (n : ℕ) (src : List String), n ≤ src.length →
    ∀ (spec : SpecMap) (role : String),
    fillFromIter spec role n src = some (addAll spec role (src.take n), src.drop n)
  | 0, src, _, spec, role => by simp [fillFromIter, addAll_nil]
  | n + 1, [], h, spec, role => by simp at h
  | n + 1, v :: src, h, spec, role => by
    have h' : n ≤ src.length := by simpa using h
    simp only [fillFromIter, List.take_succ_cons, List.drop_succ_cons,
      addAll_cons, fillFromIter_run n src h' (addEntry spec role v) role]

/-- Shifting a `List.range` map by one. -/
theorem range_map_add {α : Type _} (n idx : ℕ) (f : ℕ → α) :
    (List.range (n + 1)).map (fun i => f (idx + i)) =
      f idx :: (List.range n).map (fun i => f (idx + 1 + i)) := by
  rw [List.range_succ_eq_map, List.map_cons, List.map_map, Nat.add_zero]
  refine congrArg _ (List.map_congr_left fun a _ => ?_)
  show f (idx + Nat.succ a) = f (idx + 1 + a)
  exact congrArg f (by omega)

/-- Running a `_spec_from_kv` fill loop: it appends `kv (role ++ ":" ++ i)` for
`i = idx, idx+1, …, idx+n-1` to `role` and records those keys in the trace, in
index order. -/
theorem fillFromKv_run (kv : String → String) (role : String) :
    ∀ (n idx : ℕ) (spec : SpecMap) (trace : List String),
    fillFromKv kv role idx n spec trace =
      (addAll spec role ((List.range n).map fun i => kv (role ++ ":" ++ toString (idx + i))),
       trace ++ (List.range n).map fun i => role ++ ":" ++ toString (idx + i))
  | 0, idx, spec, trace => by simp [fillFromKv, addAll_nil]
  | n + 1, idx, spec, trace => by
    rw [fillFromKv, fillFromKv_run kv role n (idx + 1) _ _,
      range_map_add n idx (fun j => kv (role ++ ":" ++ toString j)),
      range_map_add n idx (fun j => role ++ ":" ++ toString j), addAll_cons]
    simp [List.append_assoc]

/-- Closed form of `_spec_from_iter` when the iterator has enough elements:
chief takes the first draw, the workers take the next `nw` draws in index
order, the ps tasks take the following `np` draws in index order. -/
theorem specFromIter_closed (c : String) (rest : List String) (nw np : ℕ)
    (h : nw + np ≤ rest.length) :
    specFromIter (c :: rest) nw np =
      some (("chief", [c]) ::
        ((if nw = 0 then [] else [("worker", rest.take nw)]) ++
         (if np = 0 then [] else [("ps", (rest.drop nw).take np)]))) := by
  have h1 : nw ≤ rest.length := by omega
  have h2 : np ≤ (rest.drop nw).length := by simp [List.length_drop]; omega
  simp only [specFromIter, fillFromIter_run nw rest h1, Option.some_bind,
    fillFromIter_run np (rest.drop nw) h2, Option.map_some']
  have hw : addAll [("chief", [c])] "worker" (rest.take nw) =
      ("chief", [c]) :: (if nw = 0 then [] else [("worker", rest.take nw)]) := by
    rw [addAll_not_mem _ _ _ (by simp)]
    rcases Nat.eq_zero_or_pos nw with h0 | h0
    · simp [h0]
    · have hne : rest.take nw ≠ [] := by
        apply List.ne_nil_of_length_pos
        rw [List.length_take]
        omega
      simp [hne, Nat.pos_iff_ne_zero.mp h0]
  rw [hw]
  have hps : "ps" ∉ (("chief", [c]) ::
      (if nw = 0 then [] else [("worker", rest.take nw)])).map Prod.fst := by
    rcases Nat.eq_zero_or_pos nw with h0 | h0
    · simp [h0]
    · simp [Nat.pos_iff_ne_zero.mp h0]
  rw [addAll_not_mem _ _ _ hps]
  rcases Nat.eq_zero_or_pos np with h0 | h0
  · simp [h0]
  · have hne : (rest.drop nw).take np ≠ [] := by
      apply List.ne_nil_of_length_pos
      rw [List.length_take, List.length_drop]
      omega
    simp [hne, Nat.pos_iff_ne_zero.mp h0]

/-- Pulling a vacuous `0 + i` offset out of a `List.range` map. -/
theorem range_map_zero_add {α : Type _} (f : ℕ → α) (n : ℕ) :
    ((List.range n).map fun i => f (0 + i)) = (List.range n).map f :=
  List.map_congr_left fun a _ => congrArg f (Nat.zero_add a)

/-- Closed form of `_spec_from_kv`: the spec maps chief to the value published
at `chief:0`, ps and worker to the values published at their indexed keys, and
the trace of `kv.wait` calls is `chief:0`, then the ps keys in index order,
then the worker keys in index order. -/
theorem specFromKv_closed (kv : String → String) (nw np : ℕ) :
    specFromKv kv nw np =
      (("chief", [kv "chief:0"]) ::
         ((if np = 0 then []
           else [("ps", (List.range np).map fun i => kv ("ps" ++ ":" ++ toString i))]) ++
          (if nw = 0 then []
           else [("worker",
             (List.range nw).map fun i => kv ("worker" ++ ":" ++ toString i))])),
       "chief:0" :: (((List.range np).map fun i => "ps" ++ ":" ++ toString i) ++
         ((List.range nw).map fun i => "worker" ++ ":" ++ toString i))) := by
  simp only [specFromKv, fillFromKv_run]
  rw [range_map_zero_add (fun j => kv ("ps" ++ ":" ++ toString j)) np,
    range_map_zero_add (fun j => "ps" ++ ":" ++ toString j) np,
    range_map_zero_add (fun j => kv ("worker" ++ ":" ++ toString j)) nw,
    range_map_zero_add (fun j => "worker" ++ ":" ++ toString j) nw]
  have hps : addAll [("chief", [kv "chief:0"])] "ps"
      ((List.range np).map fun i => kv ("ps" ++ ":" ++ toString i)) =
      ("chief", [kv "chief:0"]) ::
        (if np = 0 then []
         else [("ps", (List.range np).map fun i => kv ("ps" ++ ":" ++ toString i))]) := by
    rw [addAll_not_mem _ _ _ (by simp)]
    rcases Nat.eq_zero_or_pos np with h0 | h0
    · simp [h0]
    · simp [List.range_eq_nil, Nat.pos_iff_ne_zero.mp h0]
  rw [hps]
  have hwk : "worker" ∉ (("chief", [kv "chief:0"]) ::
      (if np = 0 then []
       else [("ps", (List.range np).map fun i => kv ("ps" ++ ":" ++ toString i))])).map
        Prod.fst := by
    rcases Nat.eq_zero_or_pos np with h0 | h0
    · simp [h0]
    · simp [Nat.pos_iff_ne_zero.mp h0]
  rw [addAll_not_mem _ _ _ hwk]
  rcases Nat.eq_zero_or_pos nw with h0 | h0
  · simp [h0]
  · simp [List.range_eq_nil, Nat.pos_iff_ne_zero.mp h0, List.append_assoc]

/-- C5 counterexample: `_spec_from_iter` does not resolve `ps` before
`worker`.  With the reserved-address iterator supplying `"a", "b", "c"` and one
worker and one ps task, the second draw `"b"` goes to `worker:0` and the third
draw `"c"` to `ps:0`; under the claimed order (`coordinator`, then
`param-holder`, then `worker`) `ps:0` would have received `"b"`. -/
theorem spec_from_iter_order_counterexample :
    specFromIter ["a", "b", "c"] 1 1 =
      some [("chief", ["a"]), ("worker", ["b"]), ("ps", ["c"])] ∧
    lookupRole [("chief", ["a"]), ("worker", ["b"]), ("ps", ["c"])] "ps" ≠
      some ["b"] := by
  exact ⟨by decide, by decide⟩

/-- C5 (amended): the two builders use different resolution orders.
`_spec_from_kv` waits on `chief:0` first, then `ps:i` for `i` in
`[0, numPs)` in index order, then `worker:i` for `i` in `[0, numWorkers)` in
index order; `_spec_from_iter` instead draws the coordinator address first,
then the `numWorkers` worker addresses in index order, then the `numPs` ps
addresses in index order. -/
theorem spec_builders_resolution_order (kv : String → String) (nw np : ℕ)
    (c : String) (rest : List String) (h : nw + np ≤ rest.length) :
    (specFromKv kv nw np).2 =
      "chief:0" :: (((List.range np).map fun i => "ps" ++ ":" ++ toString i) ++
        ((List.range nw).map fun i => "worker" ++ ":" ++ toString i)) ∧
    specFromIter (c :: rest) nw np =
      some (("chief", [c]) ::
        ((if nw = 0 then [] else [("worker", rest.take nw)]) ++
         (if np = 0 then [] else [("ps", (rest.drop nw).take np)]))) :=
  ⟨by rw [specFromKv_closed], specFromIter_closed c rest nw np h⟩

/-- Witness for the amended C5 at `numWorkers = 2`, `numPs = 1`. -/
theorem spec_builders_resolution_order_witness :
    (specFromKv (fun k => k) 2 1).2 =
      "chief:0" :: (((List.range 1).map fun i => "ps" ++ ":" ++ toString i) ++
        ((List.range 2).map fun i => "worker" ++ ":" ++ toString i)) ∧
    specFromIter ("a" :: ["b", "c", "d"]) 2 1 =
      some (("chief", ["a"]) ::
        ((if 2 = 0 then [] else [("worker", ["b", "c", "d"].take 2)]) ++
         (if 1 = 0 then [] else [("ps", (["b", "c", "d"].drop 2).take 1)]))) :=
  spec_builders_resolution_order (fun k => k) 2 1 "a" ["b", "c", "d"] (by decide)

/-- C6: for both builders, the produced ClusterSpec has exactly one chief
endpoint, and every role whose instance count is positive maps to exactly that
many endpoints, the endpoint at position `i` being the one resolved for task
index `i` (`kv.wait(role:i)` for the kv-driven builder; for the iterator-driven
builder, worker `i` receives draw `1 + i` and ps `i` receives draw
`1 + numWorkers + i` of the reserved-address stream `c :: rest`). -/
theorem cluster_spec_invariant (kv : String → String) (nw np : ℕ)
    (c : String) (rest : List String) (h : nw + np ≤ rest.length) :
    (lookupRole (specFromKv kv nw np).1 "chief" = some [kv "chief:0"] ∧
     (nw ≠ 0 → ∃ l, lookupRole (specFromKv kv nw np).1 "worker" = some l ∧
        l.length = nw ∧
        ∀ i, i < nw → l[i]? = some (kv ("worker" ++ ":" ++ toString i))) ∧
     (np ≠ 0 → ∃ l, lookupRole (specFromKv kv nw np).1 "ps" = some l ∧
        l.length = np ∧
        ∀ i, i < np → l[i]? = some (kv ("ps" ++ ":" ++ toString i)))) ∧
    ∃ spec, specFromIter (c :: rest) nw np = some spec ∧
      lookupRole spec "chief" = some [c] ∧
      (nw ≠ 0 → ∃ l, lookupRole spec "worker" = some l ∧ l.length = nw ∧
        ∀ i, i < nw → l[i]? = rest[i]?) ∧
      (np ≠ 0 → ∃ l, lookupRole spec "ps" = some l ∧ l.length = np ∧
        ∀ i, i < np → l[i]? = rest[nw + i]?) := by
  constructor
  · rw [specFromKv_closed]
    refine ⟨by simp [lookupRole], fun hnw => ?_, fun hnp => ?_⟩
    · refine ⟨(List.range nw).map fun i => kv ("worker" ++ ":" ++ toString i),
        ?_, by simp, fun i hi => ?_⟩
      · rcases Nat.eq_zero_or_pos np with h0 | h0
        · simp [h0, hnw, lookupRole]
        · simp [Nat.pos_iff_ne_zero.mp h0, hnw, lookupRole]
      · simp [List.getElem?_range hi]
    · refine ⟨(List.range np).map fun i => kv ("ps" ++ ":" ++ toString i),
        ?_, by simp, fun i hi => ?_⟩
      · simp [hnp, lookupRole]
      · simp [List.getElem?_range hi]
  · refine ⟨_, specFromIter_closed c rest nw np h, by simp [lookupRole],
      fun hnw => ?_, fun hnp => ?_⟩
    · refine ⟨rest.take nw, by simp [hnw, lookupRole], ?_, fun i hi =>
        List.getElem?_take_of_lt hi⟩
      rw [List.length_take]
      omega
    · refine ⟨(rest.drop nw).take np, ?_, ?_, fun i hi => ?_⟩
      · rcases Nat.eq_zero_or_pos nw with h0 | h0
        · simp [h0, hnp, lookupRole]
        · simp [Nat.pos_iff_ne_zero.mp h0, hnp, lookupRole]
      · rw [List.length_take, List.length_drop]
        omega
      · rw [List.getElem?_take_of_lt hi, List.getElem?_drop]

/-- Witness for C6 at `numWorkers = 2`, `numPs = 1`, with the identity
key-value source and the reserved stream `"a", "b", "c", "d"`. -/
theorem cluster_spec_invariant_witness :
    (lookupRole (specFromKv (fun k => k) 2 1).1 "chief" =
        some [(fun k : String => k) "chief:0"] ∧
     (2 ≠ 0 → ∃ l, lookupRole (specFromKv (fun k => k) 2 1).1 "worker" = some l ∧
        l.length = 2 ∧
        ∀ i, i < 2 → l[i]? = some ((fun k : String => k) ("worker" ++ ":" ++ toString i))) ∧
     (1 ≠ 0 → ∃ l, lookupRole (specFromKv (fun k => k) 2 1).1 "ps" = some l ∧
        l.length = 1 ∧
        ∀ i, i < 1 → l[i]? = some ((fun k : String => k) ("ps" ++ ":" ++ toString i)))) ∧
    ∃ spec, specFromIter ("a" :: ["b", "c", "d"]) 2 1 = some spec ∧
      lookupRole spec "chief" = some ["a"] ∧
      (2 ≠ 0 → ∃ l, lookupRole spec "worker" = some l ∧ l.length = 2 ∧
        ∀ i, i < 2 → l[i]? = ["b", "c", "d"][i]?) ∧
      (1 ≠ 0 → ∃ l, lookupRole spec "ps" = some l ∧ l.length = 1 ∧
        ∀ i, i < 1 → l[i]? = ["b", "c", "d"][2 + i]?) :=
  cluster_spec_invariant (fun k => k) 2 1 "a" ["b", "c", "d"] (by decide)

/-- C10: for both builders, a role whose instance count is `0` contributes no
key at all to the spec dict (it is not mapped to an empty list), `"chief"` is
always a key, and a role name is a key exactly when it is `"chief"` or a
role with positive count. -/
theorem cluster_spec_zero_roles_absent (kv : String → String) (nw np : ℕ)
    (c : String) (rest : List String) (h : nw + np ≤ rest.length) :
    ((specFromKv kv nw np).1.map Prod.fst =
      "chief" :: ((if np = 0 then [] else ["ps"]) ++
        (if nw = 0 then [] else ["worker"])) ∧
     ∀ r, r ∈ (specFromKv kv nw np).1.map Prod.fst ↔
        (r = "chief" ∨ (r = "worker" ∧ nw ≠ 0) ∨ (r = "ps" ∧ np ≠ 0))) ∧
    ∃ spec, specFromIter (c :: rest) nw np = some spec ∧
      spec.map Prod.fst =
        "chief" :: ((if nw = 0 then [] else ["worker"]) ++
          (if np = 0 then [] else ["ps"])) ∧
      ∀ r, r ∈ spec.map Prod.fst ↔
        (r = "chief" ∨ (r = "worker" ∧ nw ≠ 0) ∨ (r = "ps" ∧ np ≠ 0)) := by
  have keysKv : (specFromKv kv nw np).1.map Prod.fst =
      "chief" :: ((if np = 0 then [] else ["ps"]) ++
        (if nw = 0 then [] else ["worker"])) := by
    rw [specFromKv_closed]
    rcases Nat.eq_zero_or_pos np with h0 | h0 <;>
      rcases Nat.eq_zero_or_pos nw with h1 | h1 <;>
      simp [h0, h1, Nat.pos_iff_ne_zero.mp, lookupRole]
  refine ⟨⟨keysKv, fun r => ?_⟩,
    _, specFromIter_closed c rest nw np h, ?_, fun r => ?_⟩
  · rw [keysKv]
    rcases Nat.eq_zero_or_pos np with h0 | h0 <;>
      rcases Nat.eq_zero_or_pos nw with h1 | h1 <;>
      simp [h0, h1, Nat.pos_iff_ne_zero.mp] <;> tauto
  · rcases Nat.eq_zero_or_pos np with h0 | h0 <;>
      rcases Nat.eq_zero_or_pos nw with h1 | h1 <;>
      simp [h0, h1, Nat.pos_iff_ne_zero.mp]
  · rcases Nat.eq_zero_or_pos np with h0 | h0 <;>
      rcases Nat.eq_zero_or_pos nw with h1 | h1 <;>
      simp [h0, h1, Nat.pos_iff_ne_zero.mp]

/-- Witness for C10 at `numWorkers = 0`, `numPs = 1`: the `"worker"` key is
absent, the `"ps"` and `"chief"` keys are present. -/
theorem cluster_spec_zero_roles_absent_witness :
    (((specFromKv (fun k => k) 0 1).1.map Prod.fst =
      "chief" :: ((if 1 = 0 then [] else ["ps"]) ++
        (if 0 = 0 then [] else ["worker"])) ∧
     ∀ r, r ∈ (specFromKv (fun k => k) 0 1).1.map Prod.fst ↔
        (r = "chief" ∨ (r = "worker" ∧ 0 ≠ 0) ∨ (r = "ps" ∧ 1 ≠ 0))) ∧
    ∃ spec, specFromIter ("a" :: ["b"]) 0 1 = some spec ∧
      spec.map Prod.fst =
        "chief" :: ((if 0 = 0 then [] else ["worker"]) ++
          (if 1 = 0 then [] else ["ps"])) ∧
      ∀ r, r ∈ spec.map Prod.fst ↔
        (r = "chief" ∨ (r = "worker" ∧ 0 ≠ 0) ∨ (r = "ps" ∧ 1 ≠ 0))) :=
  cluster_spec_zero_roles_absent (fun k => k) 0 1 "a" ["b"] (by decide)

/-! ## Job lifecycle (`cluster.py` lines 207-249)

`skein.model.FinalStatus` as used by `_await_termination`. -/

inductive FinalStatus where
  | undefined
  | succeeded
  | failed
  | killed
deriving DecidableEq, Repr

/-- A container record from `app.get_containers()`. -/
structure Container where
  cid : ℕ
  state : String
  logs : String
deriving DecidableEq, Repr

/-- The coordinator's accumulated `containers` dict, keyed by container id
with `(state, yarn_container_logs)` values. -/
abbrev ContainerMap := List (ℕ × String × String)

def lookupContainer : ContainerMap → ℕ → Option (String × String)
  | [], _ => none
  | (i, w) :: rest, cid => if i = cid then some w else lookupContainer rest cid

/-- `containers[c.id] = (c.state, c.yarn_container_logs)`. -/
def setContainer : ContainerMap → ℕ → String × String → ContainerMap
  | [], cid, v => [(cid, v)]
  | (i, w) :: rest, cid, v =>
    if i = cid then (cid, v) :: rest else (i, w) :: setContainer rest cid v

/-- The `for c in app.get_containers(): containers[c.id] = …` loop body of one
poll iteration. -/
def mergeContainers (m : ContainerMap) (cs : List Container) : ContainerMap :=
  cs.foldl (fun acc c => setContainer acc c.cid (c.state, c.logs)) m

/-- One manager report delivered by `client.application_report` together with
the containers returned by `app.get_containers()` in the same iteration. -/
structure Poll where
  status : FinalStatus
  containers : List Container
deriving DecidableEq, Repr

/-- Observable events of the monitoring loop: the `time.sleep(poll_every_secs)`
call and the manager query that follows it. -/
inductive PollEvent where
  | sleep
  | query
deriving DecidableEq, Repr

/-- The trace left by `k` iterations of the polling loop: a sleep before each
query. -/
def sleepQueryTrace : ℕ → List PollEvent
  | 0 => []
  | k + 1 => sleepQueryTrace k ++ [PollEvent.sleep, PollEvent.query]

/-- The `while final_status is FinalStatus.UNDEFINED` loop of
`_await_termination`, driven by a finite script of manager reports: while the
last observed status is `UNDEFINED`, sleep, query the next report, and merge
its containers; return as soon as the status is terminal.  `none` means the
script ran out while the loop still wanted to poll. -/
def awaitAux : List Poll → FinalStatus → ContainerMap → List PollEvent →
    Option (FinalStatus × ContainerMap × List PollEvent)
  | script, status, m, trace =>
    if status = FinalStatus.undefined then
      match script with
      | [] => none
      | p :: rest =>
        awaitAux rest p.status (mergeContainers m p.containers)
          (trace ++ [PollEvent.sleep, PollEvent.query])
    else
      some (status, m, trace)

/-- `_await_termination` starts with `final_status = UNDEFINED` and an empty
container dict. -/
def awaitTermination (script : List Poll) :
    Option (FinalStatus × ContainerMap × List PollEvent) :=
  awaitAux script FinalStatus.undefined [] []

theorem lookupContainer_setContainer_isSome (m : ContainerMap) (c cid : ℕ)
    (v : String × String) (h : (lookupContainer m cid).isSome) :
    (lookupContainer (setContainer m c v) cid).isSome := by
  induction m with
  | nil => simp [lookupContainer] at h
  | cons p rest ih =>
    obtain ⟨i, w⟩ := p
    by_cases hic : i = c
    · subst hic
      by_cases hcid : i = cid
      · simp [setContainer, lookupContainer, hcid]
      · simp only [setContainer, if_pos rfl, lookupContainer, if_neg hcid]
        simpa [lookupContainer, hcid] using h
    · simp only [setContainer, if_neg hic, lookupContainer] at h ⊢
      by_cases hcid : i = cid
      · simp [hcid]
      · simp only [if_neg hcid] at h ⊢
        exact ih h

/-- Merging a poll's containers never discards a previously seen record. -/
theorem lookupContainer_merge_isSome (cs : List Container) (m : ContainerMap)
    (cid : ℕ) (h : (lookupContainer m cid).isSome) :
    (lookupContainer (mergeContainers m cs) cid).isSome := by
  induction cs generalizing m with
  | nil => exact h
  | cons c rest ih =>
    exact ih _ (lookupContainer_setContainer_isSome m c.cid cid _ h)

/-- Any exit of `awaitAux` carries a pure sleep-query pair trace extending the
incoming one. -/
theorem awaitAux_trace (script : List Poll) :
    ∀ (status : FinalStatus) (m : ContainerMap) (k : ℕ) (out : FinalStatus × ContainerMap × List PollEvent),
    awaitAux script status m (sleepQueryTrace k) = some out →
    ∃ k', out.2.2 = sleepQueryTrace k' ∧ k ≤ k' ∧ k' ≤ k + script.length := by
  induction script with
  | nil =>
    intro status m k out h
    rw [awaitAux] at h
    by_cases hs : status = FinalStatus.undefined
    · simp [hs] at h
    · simp only [if_neg hs] at h
      exact ⟨k, by simp [← Option.some_inj.mp h], le_refl k, by simp⟩
  | cons p rest ih =>
    intro status m k out h
    rw [awaitAux] at h
    by_cases hs : status = FinalStatus.undefined
    · simp only [if_pos hs] at h
      have : awaitAux rest p.status (mergeContainers m p.containers)
          (sleepQueryTrace (k + 1)) = some out := by
        simpa [sleepQueryTrace] using h
      obtain ⟨k', hk', hk1, hk2⟩ := ih p.status _ (k + 1) out this
      exact ⟨k', hk', by omega, by simp at hk2 ⊢; omega⟩
    · simp only [if_neg hs] at h
      exact ⟨k, by simp [← Option.some_inj.mp h], le_refl k, by simp⟩

/-- `awaitAux` only ever returns a status the loop condition rejects: the loop
runs while and only while the last observed status is `UNDEFINED`. -/
theorem awaitAux_terminal (script : List Poll) :
    ∀ (status : FinalStatus) (m : ContainerMap) (tr : List PollEvent)
      (out : FinalStatus × ContainerMap × List PollEvent),
    awaitAux script status m tr = some out → out.1 ≠ FinalStatus.undefined := by
  induction script with
  | nil =>
    intro status m tr out h
    rw [awaitAux] at h
    by_cases hs : status = FinalStatus.undefined
    · simp [hs] at h
    · simp only [if_neg hs] at h
      rw [← Option.some_inj.mp h]
      exact hs
  | cons p rest ih =>
    intro status m tr out h
    rw [awaitAux] at h
    by_cases hs : status = FinalStatus.undefined
    · simp only [if_pos hs] at h
      exact ih p.status _ _ out h
    · simp only [if_neg hs] at h
      rw [← Option.some_inj.mp h]
      exact hs

/-! ## `_shutdown` (`cluster.py` lines 231-249) -/

/-- How control leaves the monitoring scope wrapped by `_shutdown`:
`sys.exc_info()` observed in the `finally` block. -/
inductive ExitCause where
  | normal
  | keyboardInterrupt
  | systemExit
  | error
deriving DecidableEq, Repr

/-- The status-label classification of `_shutdown`:
`isinstance(exc_value, (KeyboardInterrupt, SystemExit))` → `"KILLED"`,
any other non-`None` exception → `"FAILED"`, otherwise `"SUCCEEDED"`. -/
def classifyExit : ExitCause → String
  | .keyboardInterrupt => "KILLED"
  | .systemExit => "KILLED"
  | .error => "FAILED"
  | .normal => "SUCCEEDED"

/-- Possible outcomes of the `app.shutdown(status)` call. -/
inductive ShutdownCallResult where
  | ok
  | connectionError
  | otherError
deriving DecidableEq, Repr

/-- What is propagating out of the `_shutdown` scope after the `finally`
block. -/
inductive EscapingError where
  /-- The body's own exception keeps propagating. -/
  | fromBody (c : ExitCause)
  /-- A non-connection error raised by `app.shutdown` propagates (replacing
  any in-flight exception, per Python `finally` semantics). -/
  | fromTerminate
deriving DecidableEq, Repr

/-- The observable outcome of the `_shutdown` scope: the label passed to
`app.shutdown`, and whatever error escapes. -/
structure ShutdownOutcome where
  label : String
  escaping : Option EscapingError
deriving DecidableEq, Repr

/-- The `finally` block of `_shutdown`: classify the exit cause, call
`app.shutdown(status)`, swallow a `skein.exceptions.ConnectionError` from that
call (`pass  # Application already down.`), propagate anything else. -/
def shutdownScope (cause : ExitCause)
    (terminate : String → ShutdownCallResult) : ShutdownOutcome :=
  let status := classifyExit cause
  let bodyEsc : Option EscapingError :=
    match cause with
    | .normal => none
    | c => some (.fromBody c)
  match terminate status with
  | .ok => ⟨status, bodyEsc⟩
  | .connectionError => ⟨status, bodyEsc⟩
  | .otherError => ⟨status, some .fromTerminate⟩

/-- C7: for the report sequence `UNDEFINED, UNDEFINED, SUCCEEDED` the loop
sleeps before each query and exits exactly after the third poll with outcome
`SUCCEEDED`, keeping container `1` even though the third poll no longer
reports it; merging never discards a previously seen container record; the
loop returns as soon as — and only when — the last observed status is not
`UNDEFINED`; and every exit trace is a sequence of sleep-query pairs, one pair
per poll, at most one per script entry. -/
theorem await_termination_polling :
    (awaitTermination
      [⟨FinalStatus.undefined, [⟨1, "RUNNING", "l1"⟩]⟩,
       ⟨FinalStatus.undefined, [⟨1, "RUNNING", "l1"⟩, ⟨2, "RUNNING", "l2"⟩]⟩,
       ⟨FinalStatus.succeeded, [⟨2, "COMPLETE", "l2b"⟩]⟩] =
      some (FinalStatus.succeeded,
        [(1, ("RUNNING", "l1")), (2, ("COMPLETE", "l2b"))],
        sleepQueryTrace 3)) ∧
    (∀ (m : ContainerMap) (cs : List Container) (cid : ℕ),
      (lookupContainer m cid).isSome →
      (lookupContainer (mergeContainers m cs) cid).isSome) ∧
    (∀ (script : List Poll) (status : FinalStatus) (m : ContainerMap)
        (tr : List PollEvent), status ≠ FinalStatus.undefined →
      awaitAux script status m tr = some (status, m, tr)) ∧
    (∀ (script : List Poll) (status : FinalStatus) (m : ContainerMap)
        (tr : List PollEvent) (out : FinalStatus × ContainerMap × List PollEvent),
      awaitAux script status m tr = some out → out.1 ≠ FinalStatus.undefined) ∧
    (∀ (script : List Poll) (out : FinalStatus × ContainerMap × List PollEvent),
      awaitTermination script = some out →
      ∃ k, out.2.2 = sleepQueryTrace k ∧ k ≤ script.length) := by
  refine ⟨by decide, fun m cs cid h => lookupContainer_merge_isSome cs m cid h,
    fun script status m tr h => ?_, fun script status m tr out h =>
      awaitAux_terminal script status m tr out h, fun script out h => ?_⟩
  · cases script with
    | nil => rw [awaitAux, if_neg h]
    | cons p rest => rw [awaitAux, if_neg h]
  · obtain ⟨k', hk', _, hk2⟩ :=
      awaitAux_trace script FinalStatus.undefined [] 0 out (by simpa [sleepQueryTrace] using h)
    exact ⟨k', hk', by simpa using hk2⟩

/-- Witness for C7's quantified conjuncts at concrete inputs. -/
theorem await_termination_polling_witness :
    (lookupContainer (mergeContainers [(5, ("R", "x"))] [⟨7, "S", "y"⟩]) 5).isSome ∧
    awaitAux [] FinalStatus.succeeded [] [] = some (FinalStatus.succeeded, [], []) ∧
    (FinalStatus.failed, ([] : ContainerMap),
        [PollEvent.sleep, PollEvent.query]).1 ≠ FinalStatus.undefined ∧
    ∃ k, (FinalStatus.failed, ([] : ContainerMap),
        [PollEvent.sleep, PollEvent.query]).2.2 = sleepQueryTrace k ∧
      k ≤ [(⟨FinalStatus.failed, []⟩ : Poll)].length :=
  ⟨await_termination_polling.2.1 [(5, ("R", "x"))] [⟨7, "S", "y"⟩] 5 (by decide),
   await_termination_polling.2.2.1 [] FinalStatus.succeeded [] [] (by decide),
   await_termination_polling.2.2.2.1 [⟨FinalStatus.failed, []⟩]
     FinalStatus.undefined [] []
     (FinalStatus.failed, [], [PollEvent.sleep, PollEvent.query]) (by decide),
   await_termination_polling.2.2.2.2 [⟨FinalStatus.failed, []⟩]
     (FinalStatus.failed, [], [PollEvent.sleep, PollEvent.query]) (by decide)⟩

/-- C3: on every way control leaves the monitoring scope, `_shutdown` calls
`app.shutdown` with the label classified from the exit cause —
`KeyboardInterrupt`/`SystemExit` → `KILLED`, any other escaping exception →
`FAILED`, normal fall-through → `SUCCEEDED`; a connection error raised by that
terminate call is swallowed (only the body's own exception, if any, keeps
propagating), while any other error from it propagates. -/
theorem shutdown_always_terminates (cause : ExitCause)
    (terminate : String → ShutdownCallResult) :
    (shutdownScope cause terminate).label = classifyExit cause ∧
    ((cause = ExitCause.keyboardInterrupt ∨ cause = ExitCause.systemExit) →
      (shutdownScope cause terminate).label = "KILLED") ∧
    (cause = ExitCause.error → (shutdownScope cause terminate).label = "FAILED") ∧
    (cause = ExitCause.normal → (shutdownScope cause terminate).label = "SUCCEEDED") ∧
    (terminate (classifyExit cause) = ShutdownCallResult.connectionError →
      (shutdownScope cause terminate).escaping =
        (if cause = ExitCause.normal then none
         else some (EscapingError.fromBody cause))) ∧
    (terminate (classifyExit cause) = ShutdownCallResult.otherError →
      (shutdownScope cause terminate).escaping =
        some EscapingError.fromTerminate) := by
  rcases cause <;>
    rcases hterm : terminate (classifyExit _) <;>
    simp_all [shutdownScope, classifyExit]

/-- Witness for C3: an external interruption during monitoring terminates the
job with label `KILLED` even though no terminal status was ever reported, and
the connection error from the final call is swallowed. -/
theorem shutdown_always_terminates_witness :
    (shutdownScope ExitCause.keyboardInterrupt
        (fun _ => ShutdownCallResult.connectionError)).label = "KILLED" ∧
    (shutdownScope ExitCause.keyboardInterrupt
        (fun _ => ShutdownCallResult.connectionError)).escaping =
      (if ExitCause.keyboardInterrupt = ExitCause.normal then none
       else some (EscapingError.fromBody ExitCause.keyboardInterrupt)) :=
  ⟨(shutdown_always_terminates ExitCause.keyboardInterrupt
      (fun _ => ShutdownCallResult.connectionError)).2.1 (Or.inl rfl),
   (shutdown_always_terminates ExitCause.keyboardInterrupt
      (fun _ => ShutdownCallResult.connectionError)).2.2.2.2.1 rfl⟩

/-! ## `YARNCluster.run` validation (`cluster.py` lines 104-199) -/

inductive TaskFlavor where
  | cpu
  | gpu
deriving DecidableEq, Repr

structure TaskSpec where
  memory : ℕ
  vcores : ℕ
  instances : ℕ
  flavor : TaskFlavor
deriving DecidableEq, Repr

/-- The "dummy" `TaskSpec.NONE = TaskSpec(0, 0, 0)`. -/
def TaskSpec.NONE : TaskSpec := ⟨0, 0, 0, TaskFlavor.cpu⟩

/-- `all_task_types = {"chief", "worker", "ps", "evaluator"}`. -/
def allTaskTypes : List String := ["chief", "worker", "ps", "evaluator"]

abbrev TaskSpecs := List (String × TaskSpec)

/-- `defaultdict(lambda: TaskSpec.NONE, task_specs)[role]`. -/
def getTaskSpec (ts : TaskSpecs) (role : String) : TaskSpec :=
  (ts.lookup role).getD TaskSpec.NONE

/-- Errors `YARNCluster.run` raises before submission: the `ValueError` for an
unknown task-spec key and the `assert` failures on instance counts. -/
inductive RunError where
  | valueError
  | assertionError
deriving DecidableEq, Repr

/-- `YARNCluster.run` up to `client.submit(spec)`: first the
`task_specs.keys() <= all_task_types` check (`ValueError`), then
`assert task_specs["evaluator"].instances <= 1`, then
`assert task_specs["chief"].instances == 1`, in source order.  The remaining
steps (environment packaging, `skein.Service` construction, queue naming)
only call external collaborators and perform no further validation of the
counts, so they are modelled as succeeding; `.ok ()` marks that control
reaches the `client.submit(spec)` call. -/
def runUntilSubmit (ts : TaskSpecs) : Except RunError Unit :=
  if ¬ (∀ k ∈ ts.map Prod.fst, k ∈ allTaskTypes) then .error .valueError
  else if ¬ (getTaskSpec ts "evaluator").instances ≤ 1 then .error .assertionError
  else if (getTaskSpec ts "chief").instances ≠ 1 then .error .assertionError
  else .ok ()

end TfSkein

namespace TfSkein

/-- C4: whenever the chief instance count is not exactly `1` (including when
`"chief"` is absent, since the defaultdict then yields `TaskSpec.NONE` with
count `0`), or some task-spec key is outside
`{chief, worker, ps, evaluator}`, `YARNCluster.run` raises a validation error
before `client.submit` is ever reached. -/
theorem run_validates_before_submit (ts : TaskSpecs)
    (h : (getTaskSpec ts "chief").instances ≠ 1 ∨
      ∃ k ∈ ts.map Prod.fst, k ∉ allTaskTypes) :
    ∃ e, runUntilSubmit ts = .error e := by
  unfold runUntilSubmit
  by_cases hk : ∀ k ∈ ts.map Prod.fst, k ∈ allTaskTypes
  · rw [if_neg (not_not_intro hk)]
    by_cases he : (getTaskSpec ts "evaluator").instances ≤ 1
    · rw [if_neg (not_not_intro he)]
      have hc : (getTaskSpec ts "chief").instances ≠ 1 := by
        rcases h with h | ⟨k, hk1, hk2⟩
        · exact h
        · exact absurd (hk k hk1) hk2
      rw [if_pos hc]
      exact ⟨_, rfl⟩
    · rw [if_pos he]
      exact ⟨_, rfl⟩
  · rw [if_pos hk]
    exact ⟨_, rfl⟩

/-- Witness for C4: a chief spec requesting `2` instances is rejected before
submission. -/
theorem run_validates_before_submit_witness :
    ∃ e, runUntilSubmit [("chief", ⟨1024, 1, 2, TaskFlavor.cpu⟩)] = .error e :=
  run_validates_before_submit [("chief", ⟨1024, 1, 2, TaskFlavor.cpu⟩)]
    (Or.inl (by decide))

/-! ## `encode_fn` / `decode_fn` (`_internal.py` lines 86-93)

`encode_fn(fn) = b64encode(dill.dumps(fn)).decode()` and
`decode_fn(s) = dill.loads(b64decode(s))`.  Standard base64 (RFC 4648) is
implemented here over byte lists; `dill`, an external library, is abstracted
as an arbitrary serializer/deserializer pair. -/

def b64Alphabet : List Char :=
  ['A', 'B', 'C', 'D', 'E', 'F', 'G', 'H', 'I', 'J', 'K', 'L', 'M',
   'N', 'O', 'P', 'Q', 'R', 'S', 'T', 'U', 'V', 'W', 'X', 'Y', 'Z',
   'a', 'b', 'c', 'd', 'e', 'f', 'g', 'h', 'i', 'j', 'k', 'l', 'm',
   'n', 'o', 'p', 'q', 'r', 's', 't', 'u', 'v', 'w', 'x', 'y', 'z',
   '0', '1', '2', '3', '4', '5', '6', '7', '8', '9', '+', '/']

def sextetToChar (n : ℕ) : Char := b64Alphabet.getD n 'A'

def charToSextet (c : Char) : Option ℕ := b64Alphabet.findIdx? (· = c)

/-- Base64 encoding of a byte list, with `=` padding. -/
def b64encode : List ℕ → List Char
  | [] => []
  | [a] => [sextetToChar (a / 4), sextetToChar (a % 4 * 16), '=', '=']
  | [a, b] => [sextetToChar (a / 4), sextetToChar (a % 4 * 16 + b / 16),
      sextetToChar (b % 16 * 4), '=']
  | a :: b :: c :: rest =>
      sextetToChar (a / 4) :: sextetToChar (a % 4 * 16 + b / 16) ::
      sextetToChar (b % 16 * 4 + c / 64) :: sextetToChar (c % 64) ::
      b64encode rest

/-- Base64 decoding, the inverse of `b64encode` on its range. -/
def b64decode : List Char → Option (List ℕ)
  | [] => some []
  | w :: x :: y :: z :: rest =>
    (charToSextet w).bind fun a =>
    (charToSextet x).bind fun b =>
    if y = '=' ∧ z = '=' ∧ rest = [] then
      some [a * 4 + b / 16]
    else if z = '=' ∧ rest = [] then
      (charToSextet y).map fun c => [a * 4 + b / 16, b % 16 * 16 + c / 4]
    else
      (charToSextet y).bind fun c =>
      (charToSextet z).bind fun d =>
      (b64decode rest).map fun tail =>
        (a * 4 + b / 16) :: (b % 16 * 16 + c / 4) :: (c % 4 * 64 + d) :: tail
  | _ => none

/-- `encode_fn`, with `dill.dumps` abstracted as `dumps`. -/
def encode_fn {W : Type _} (dumps : W → List ℕ) (f : W) : List Char :=
  b64encode (dumps f)

/-- `decode_fn`, with `dill.loads` abstracted as `loads`. -/
def decode_fn {W : Type _} (loads : List ℕ → Option W) (s : List Char) :
    Option W :=
  (b64decode s).bind loads

theorem charToSextet_sextetToChar_fin :
    ∀ n : Fin 64, charToSextet (sextetToChar n.val) = some n.val := by decide

theorem sextetToChar_ne_pad_fin : ∀ n : Fin 64, sextetToChar n.val ≠ '=' := by
  decide

theorem charToSextet_sextetToChar (v : ℕ) (h : v < 64) :
    charToSextet (sextetToChar v) = some v :=
  charToSextet_sextetToChar_fin ⟨v, h⟩

theorem sextetToChar_ne_pad (v : ℕ) (h : v < 64) : sextetToChar v ≠ '=' :=
  sextetToChar_ne_pad_fin ⟨v, h⟩

/-- Base64 round-trip on byte lists. -/
theorem b64_roundtrip : ∀ (bs : List ℕ), (∀ b ∈ bs, b < 256) →
    b64decode (b64encode bs) = some bs
  | [], _ => rfl
  | [a], h => by
    have ha : a < 256 := h a (by simp)
    have h1 : a / 4 < 64 := by omega
    have h2 : a % 4 * 16 < 64 := by omega
    simp only [b64encode, b64decode, charToSextet_sextetToChar _ h1,
      charToSextet_sextetToChar _ h2, Option.some_bind]
    rw [if_pos (by simp)]
    have : a / 4 * 4 + a % 4 * 16 / 16 = a := by omega
    rw [this]
  | [a, b], h => by
    have ha : a < 256 := h a (by simp)
    have hb : b < 256 := h b (by simp)
    have h1 : a / 4 < 64 := by omega
    have h2 : a % 4 * 16 + b / 16 < 64 := by omega
    have h3 : b % 16 * 4 < 64 := by omega
    simp only [b64encode, b64decode, charToSextet_sextetToChar _ h1,
      charToSextet_sextetToChar _ h2, charToSextet_sextetToChar _ h3,
      Option.some_bind]
    rw [if_neg (fun hc => sextetToChar_ne_pad _ h3 hc.1), if_pos (by simp)]
    have e1 : a / 4 * 4 + (a % 4 * 16 + b / 16) / 16 = a := by omega
    have e2 : (a % 4 * 16 + b / 16) % 16 * 16 + b % 16 * 4 / 4 = b := by omega
    rw [Option.map_some', e1, e2]
  | a :: b :: c :: rest, h => by
    have ha : a < 256 := h a (by simp)
    have hb : b < 256 := h b (by simp)
    have hc : c < 256 := h c (by simp)
    have h1 : a / 4 < 64 := by omega
    have h2 : a % 4 * 16 + b / 16 < 64 := by omega
    have h3 : b % 16 * 4 + c / 64 < 64 := by omega
    have h4 : c % 64 < 64 := by omega
    have hr : ∀ x ∈ rest, x < 256 := fun x hx => h x (by simp [hx])
    simp only [b64encode, b64decode, charToSextet_sextetToChar _ h1,
      charToSextet_sextetToChar _ h2, charToSextet_sextetToChar _ h3,
      charToSextet_sextetToChar _ h4, Option.some_bind]
    rw [if_neg (fun hcon => sextetToChar_ne_pad _ h3 hcon.1),
      if_neg (fun hcon => sextetToChar_ne_pad _ h4 hcon.1),
      b64_roundtrip rest hr, Option.map_some']
    have e1 : a / 4 * 4 + (a % 4 * 16 + b / 16) / 16 = a := by omega
    have e2 : (a % 4 * 16 + b / 16) % 16 * 16 + (b % 16 * 4 + c / 64) / 4 = b := by
      omega
    have e3 : (b % 16 * 4 + c / 64) % 4 * 64 + c % 64 = c := by omega
    rw [e1, e2, e3]

end TfSkein

namespace TfSkein

/-- C8: for every serializable unit of work — modelled by a `dumps`/`loads`
pair with `loads (dumps f) = some f` producing bytes, as `dill` guarantees for
serializable callables — `decode_fn (encode_fn f)` recovers exactly `f`, the
base64 text produced by `encode_fn` being plain-text-safe and `b64decode`
being its exact inverse. -/
theorem encode_decode_roundtrip {W : Type _} (dumps : W → List ℕ)
    (loads : List ℕ → Option W) (f : W)
    (hinv : loads (dumps f) = some f)
    (hbytes : ∀ b ∈ dumps f, b < 256) :
    decode_fn loads (encode_fn dumps f) = some f := by
  unfold decode_fn encode_fn
  rw [b64_roundtrip (dumps f) hbytes, Option.some_bind, hinv]

/-- Witness for C8 with the identity serializer on a concrete byte list. -/
theorem encode_decode_roundtrip_witness :
    decode_fn some (encode_fn id [72, 255, 0, 7]) = some [72, 255, 0, 7] :=
  encode_decode_roundtrip id some [72, 255, 0, 7] rfl (by decide)

end TfSkein

namespace TfSkein

/-! ## `iter_available_sock_addrs` (`_internal.py` lines 31-53)

The operating system's `bind(("", 0))` is modelled as a function from the set
of ports this generator already holds open (every acquired socket is kept in
the `ExitStack` until the generator is closed) and the attempt number to a
bind result. -/

inductive BindResult where
  /-- `bind` succeeded and `getsockname` reports this port. -/
  | ok (port : ℕ)
  /-- `socket.error` with `errno == EADDRINUSE`: retried silently. -/
  | addrInUse
  /-- any other `socket.error`: re-raised. -/
  | otherError
deriving DecidableEq, Repr

/-- An endpoint `f"\x7bhost\x7d:\x7bport\x7d"`, kept as the pair. -/
abbrev SockAddr := String × ℕ

/-- The generator loop of `iter_available_sock_addrs`, driven for `fuel` bind
attempts (the generator itself is infinite; a consumer abandons it after
finitely many attempts, releasing the held sockets): each successful bind
yields `host:port` and keeps the socket (the port joins `held`); an
`EADDRINUSE` failure is retried silently (that socket is also kept in the
stack, which does not change the yielded sequence); any other bind error
propagates. -/
def iterSockAddrs (os : List ℕ → ℕ → BindResult) (host : String) :
    ℕ → List ℕ → ℕ → Except Unit (List SockAddr)
  | 0, _, _ => .ok []
  | fuel + 1, held, attempt =>
    match os held attempt with
    | .ok p => (iterSockAddrs os host fuel (p :: held) (attempt + 1)).map
        (fun l => (host, p) :: l)
    | .addrInUse => iterSockAddrs os host fuel held (attempt + 1)
    | .otherError => .error ()

/-- Every port yielded by the generator is fresh relative to `held`, and the
yielded ports are pairwise distinct, provided the OS never hands out a port
whose socket is still held open. -/
theorem iterSockAddrs_fresh (os : List ℕ → ℕ → BindResult) (host : String)
    (hos : ∀ held attempt p, os held attempt = .ok p → p ∉ held) :
    ∀ (fuel : ℕ) (held : List ℕ) (attempt : ℕ) (l : List SockAddr),
    iterSockAddrs os host fuel held attempt = .ok l →
    (∀ e ∈ l, e.2 ∉ held) ∧ (l.map Prod.snd).Nodup := by
  intro fuel
  induction fuel with
  | zero =>
    intro held attempt l h
    simp only [iterSockAddrs] at h
    cases h
    exact ⟨by simp, by simp⟩
  | succ fuel ih =>
    intro held attempt l h
    rw [iterSockAddrs] at h
    cases hbind : os held attempt with
    | ok p =>
      rw [hbind] at h
      dsimp only at h
      cases htail : iterSockAddrs os host fuel (p :: held) (attempt + 1) with
      | error e => rw [htail] at h; cases h
      | ok tail =>
        rw [htail] at h
        cases h
        obtain ⟨htfresh, htnodup⟩ := ih (p :: held) (attempt + 1) tail htail
        refine ⟨?_, ?_⟩
        · intro e he
          rcases List.mem_cons.mp he with rfl | he
          · exact hos held attempt p hbind
          · exact fun hmem => htfresh e he (List.mem_cons_of_mem p hmem)
        · refine List.nodup_cons.mpr ⟨?_, htnodup⟩
          intro hmem
          obtain ⟨e, he, hesnd⟩ := List.mem_map.mp hmem
          exact htfresh e he (hesnd ▸ List.mem_cons_self p held)
    | addrInUse =>
      rw [hbind] at h
      exact ih held (attempt + 1) l h
    | otherError =>
      rw [hbind] at h
      cases h

/-- C9: within one generator lifetime, and assuming only that the OS never
hands out a port whose socket this generator still holds open, every prefix of
the yielded endpoint sequence is pairwise distinct — a port yielded earlier in
the same sequence is never yielded again; an `EADDRINUSE` bind failure is
retried silently (the iteration simply moves to the next attempt, yielding
nothing); any other bind failure propagates to the consumer. -/
theorem port_reservation_distinct (os : List ℕ → ℕ → BindResult) (host : String)
    (hos : ∀ held attempt p, os held attempt = BindResult.ok p → p ∉ held) :
    (∀ fuel l, iterSockAddrs os host fuel [] 0 = .ok l →
      l.Nodup ∧ ∀ n, (l.take n).Nodup) ∧
    (∀ (osB : List ℕ → ℕ → BindResult) fuel held attempt,
      osB held attempt = BindResult.addrInUse →
      iterSockAddrs osB host (fuel + 1) held attempt =
        iterSockAddrs osB host fuel held (attempt + 1)) ∧
    (∀ (osB : List ℕ → ℕ → BindResult) fuel held attempt,
      osB held attempt = BindResult.otherError →
      iterSockAddrs osB host (fuel + 1) held attempt = .error ()) := by
  refine ⟨fun fuel l hl => ?_, fun osB fuel held attempt hB => ?_,
    fun osB fuel held attempt hB => ?_⟩
  · obtain ⟨-, hnodup⟩ := iterSockAddrs_fresh os host hos fuel [] 0 l hl
    have hl' : l.Nodup := List.Nodup.of_map Prod.snd hnodup
    exact ⟨hl', fun n => List.Nodup.sublist (List.take_sublist n l) hl'⟩
  · rw [iterSockAddrs, hB]
  · rw [iterSockAddrs, hB]

/-- Witness for C9: a sum-based fresh-port OS yields distinct ports
`1, 2` in one lifetime; a mixed OS shows the silent retry on attempt `0` and
the propagated failure on attempt `1`. -/
theorem port_reservation_distinct_witness :
    (([("h", 1), ("h", 2)] : List SockAddr).Nodup ∧
      ∀ n, (([("h", 1), ("h", 2)] : List SockAddr).take n).Nodup) ∧
    iterSockAddrs
        (fun _ attempt => if attempt = 0 then BindResult.addrInUse
          else BindResult.otherError) "h" 1 [] 0 =
      iterSockAddrs
        (fun _ attempt => if attempt = 0 then BindResult.addrInUse
          else BindResult.otherError) "h" 0 [] 1 ∧
    iterSockAddrs
        (fun _ attempt => if attempt = 0 then BindResult.addrInUse
          else BindResult.otherError) "h" 1 [] 1 = .error () := by
  have h := port_reservation_distinct (fun held _ => BindResult.ok (held.sum + 1))
    "h" (fun held attempt p hp hmem => by
      cases hp
      have hle := List.single_le_sum (fun (x : ℕ) _ => Nat.zero_le x) _ hmem
      omega)
  exact ⟨h.1 2 [("h", 1), ("h", 2)] (by rfl), h.2.1 _ 0 [] 0 (by decide),
    h.2.2 _ 0 [] 1 (by decide)⟩

end TfSkein

namespace TfSkein

/-- C2: the code's entry behaviour diverges from the claim in both directions,
evaluated on concrete inputs: (a) with an empty environment, setting the fresh
name `X` raises `KeyError` (from the `os.environ[key]` truthiness test) instead
of setting it; (b) with `X` present holding the empty string, entering the
scope succeeds and overwrites `X` instead of failing fast on the collision. -/
theorem xset_environ_entry_diverges :
    xsetEnter [] [("X", "v")] = .error (.keyError "X") ∧
    xsetEnter [("X", "")] [("X", "v")] = .ok [("X", "v")] := by
  constructor <;> rfl

/-- C1: the cleanup is skipped on exceptional exit, evaluated on a concrete
input: with `X` present holding the empty string (the only way entry succeeds),
the scope sets `X := "v"`; when the body raises, the removal loop never runs,
so `X` is still bound to `"v"` after the scope has exited — the claim says it
is absent. -/
theorem xset_environ_exceptional_exit_leaks :
    (xsetScope [("X", "")] [("X", "v")] true).finalEnv = [("X", "v")] ∧
    lookupE (xsetScope [("X", "")] [("X", "v")] true).finalEnv "X" = some "v" ∧
    (xsetScope [("X", "")] [("X", "v")] true).bodyExcPropagates = true := by
  refine ⟨rfl, rfl, rfl⟩

end TfSkein
